import Mathlib

/-!
# Shallow embedding of the bitcoin-networks-handshake crawler

This file models the crawler in `src/main.rs`, `src/messaging.rs`,
`src/utils.rs` and `src/config.rs` of the repository:

* the data model (socket addresses, bitcoin p2p `Address` values, the
  `VersionMessage` payload, the `NetworkMessage` variants the code matches on);
* `build_version_message` (messaging.rs), with the ambient wall clock and RNG
  draw made explicit as an `Env` record, since shallow embeddings pass the
  impure environment explicitly;
* the per-connection session of `collect_initial_addresses` (main.rs):
  the receive loop is `sessionLoop` over a list of inbound frames, each frame
  being either a decoded message or a decode error, exactly mirroring the
  `while let Some(result) = stream.next()` loop body; outbound sends and the
  connection attempts are logged so that theorems can talk about what was sent
  and with which timeout each connection was opened;
* `crawl_address` (main.rs), including its extra unused connection and the
  literal `Args` record it passes to the recursive session;
* the crawl loop of `main` (main.rs): `HashSet`s are modelled as lists with
  insert-if-absent (`hsInsert`), preserving set semantics (`Nodup`), and the
  `while` loop is modelled with explicit fuel (`crawlLoop`), with termination
  proved separately.

The network is a `World`: for each address, either the connection attempt
fails (`none`) or it yields the list of inbound frames the peer will deliver;
`sendOk` says whether the n-th outbound send on a connection to a given
address succeeds, modelling write-side I/O failures.
-/

/-- A network endpoint, `std::net::SocketAddr`: IPv4 or IPv6 with a port. -/
inductive SocketAddr where
  | v4 (ip : Nat) (port : Nat)
  | v6 (ip : Nat) (port : Nat)
deriving DecidableEq, Repr

/-- `bitcoin::p2p::Address`: advertised services plus the endpoint.
`sockAddr` models the result of `Address::socket_addr()`; `none` models the
`Err` case (an address not representable as a socket address). -/
structure Address where
  services : Nat
  sockAddr : Option SocketAddr
deriving DecidableEq, Repr

/-- `Address::new(socket_addr, services)`. -/
def Address.new (sa : SocketAddr) (services : Nat) : Address :=
  { services := services, sockAddr := some sa }

/-- `utils::is_ipv4`: true when `socket_addr()` returns `Ok(SocketAddr::V4 _)`. -/
def is_ipv4 (a : Address) : Bool :=
  match a.sockAddr with
  | some (SocketAddr.v4 _ _) => true
  | _ => false

/-- The protocol version constant `VersionMessage::new` stamps on the payload. -/
def PROTOCOL_VERSION : Int := 70001

/-- `bitcoin::p2p::message_network::VersionMessage`. -/
structure VersionMessage where
  version : Int
  services : Nat
  timestamp : Int
  receiver : Address
  sender : Address
  nonce : Nat
  user_agent : String
  start_height : Int
deriving DecidableEq, Repr

/-- `VersionMessage::new(services, timestamp, receiver, sender, nonce,
user_agent, start_height)`. -/
def VersionMessage.new (services : Nat) (timestamp : Int) (receiver : Address)
    (sender : Address) (nonce : Nat) (user_agent : String)
    (start_height : Int) : VersionMessage :=
  { version := PROTOCOL_VERSION, services := services, timestamp := timestamp,
    receiver := receiver, sender := sender, nonce := nonce,
    user_agent := user_agent, start_height := start_height }

/-- The `bitcoin::p2p::message::NetworkMessage` variants the crawler matches
on: `Version`, `Verack`, `GetAddr`, `Addr` (a list of timestamped addresses),
and everything else collapsed into `other` (the code's `_ => {}` arm). -/
inductive NetworkMessage where
  | version (v : VersionMessage)
  | verack
  | getaddr
  | addr (entries : List (Nat × Address))
  | other
deriving DecidableEq, Repr

/-- The ambient impure environment `build_version_message` reads: the current
wall-clock timestamp (`chrono::Utc::now().timestamp()`) and the RNG draw
(`rand::thread_rng().gen()`). -/
structure Env where
  timestamp : Int
  nonce : Nat
deriving DecidableEq, Repr

/-- `messaging::build_version_message`, with the clock reading and RNG draw
passed explicitly as `env`. -/
def build_version_message (env : Env) (receiver_address : SocketAddr)
    (sender_address : SocketAddr) (user_agent : String) : VersionMessage :=
  let START_HEIGHT : Int := 0
  let SERVICES : Nat := 0
  let sender := Address.new sender_address SERVICES
  let timestamp := env.timestamp
  let receiver := Address.new receiver_address SERVICES
  let nonce := env.nonce
  VersionMessage.new SERVICES timestamp receiver sender nonce user_agent
    START_HEIGHT

/-- `config::Args`, the parsed command-line configuration. -/
structure Args where
  remote_address : String
  local_address : String
  address_limit : Nat
  connection_timeout : Nat
  user_agent : String
deriving DecidableEq, Repr

/-- The network environment of a run: per address, `none` when the connection
attempt fails (refusal or timeout) and `some frames` when it succeeds and the
peer delivers `frames`, each frame either a decoded message or a decode error.
`sendOk a n` tells whether the n-th outbound send to address `a` succeeds. -/
structure World where
  conn : SocketAddr → Option (List (Except Unit NetworkMessage))
  sendOk : SocketAddr → Nat → Bool

/-- `HashSet::insert` on a list model: add the element only when absent. -/
def hsInsert (l : List SocketAddr) (a : SocketAddr) : List SocketAddr :=
  if a ∈ l then l else l ++ [a]

/-- `HashSet::extend`: insert every element of `xs`. -/
def hsExtend (l : List SocketAddr) (xs : List SocketAddr) : List SocketAddr :=
  xs.foldl hsInsert l

/-- The mutable state of one session of `collect_initial_addresses`:
`peer_addresses`, the two handshake flags, plus a log of the messages sent so
far on this connection and the send counter used to consult `World.sendOk`. -/
structure SessState where
  peer_addresses : List SocketAddr
  verack_sent : Bool
  getaddr_sent : Bool
  sent : List NetworkMessage
  sendCount : Nat
deriving DecidableEq, Repr

/-- One `stream.send(..)` call: fails when the world says so, otherwise logs
the message and bumps the counter. -/
def trySend (w : World) (remote : SocketAddr) (s : SessState)
    (m : NetworkMessage) : Except Unit SessState :=
  if w.sendOk remote s.sendCount then
    Except.ok { s with sent := s.sent ++ [m], sendCount := s.sendCount + 1 }
  else Except.error ()

/-- Result of processing one decoded message: the new state, whether a send
failed (which aborts the session with an error, mirroring `?`), and whether
the loop `break`s (the address-limit check in the `Addr` arm). -/
structure StepOut where
  st : SessState
  failed : Bool
  brk : Bool
deriving DecidableEq, Repr

/-- The `Addr` arm's loop: keep only entries that are IPv4 and whose
`socket_addr()` succeeds, inserting them into the session's address set. -/
def addrFold (acc : List SocketAddr) (entries : List (Nat × Address)) :
    List SocketAddr :=
  entries.foldl
    (fun l e =>
      if is_ipv4 e.2 then
        match e.2.sockAddr with
        | some sa => hsInsert l sa
        | none => l
      else l)
    acc

/-- The body of the receive loop of `collect_initial_addresses` for one
decoded message: `Version` sends `Verack` (if not yet sent) and then
immediately `GetAddr` (if not yet sent); `Addr` collects IPv4 endpoints and
breaks once `address_limit` is reached; everything else is ignored. -/
def processMsg (w : World) (remote : SocketAddr) (limit : Nat)
    (s : SessState) (m : NetworkMessage) : StepOut :=
  match m with
  | NetworkMessage.version _ =>
    match (if s.verack_sent then Except.ok s
           else trySend w remote s NetworkMessage.verack) with
    | Except.error _ => ⟨s, true, false⟩
    | Except.ok sa =>
      let sa := { sa with verack_sent := true }
      match (if sa.getaddr_sent then Except.ok sa
             else trySend w remote sa NetworkMessage.getaddr) with
      | Except.error _ => ⟨sa, true, false⟩
      | Except.ok sb => ⟨{ sb with getaddr_sent := true }, false, false⟩
  | NetworkMessage.addr entries =>
    let pas := addrFold s.peer_addresses entries
    ⟨{ s with peer_addresses := pas }, false, decide (limit ≤ pas.length)⟩
  | _ => ⟨s, false, false⟩

/-- The receive loop `while let Some(result) = stream.next()`: a decode error
is logged and the loop continues; a decoded message is processed; a failing
send aborts with an error; the `Addr`-arm break ends the loop normally.
Returns the final state and whether the session failed. -/
def sessionLoop (w : World) (remote : SocketAddr) (limit : Nat) :
    SessState → List (Except Unit NetworkMessage) → SessState × Bool
  | s, [] => (s, false)
  | s, f :: rest =>
    match f with
    | Except.error _ => sessionLoop w remote limit s rest
    | Except.ok m =>
      let o := processMsg w remote limit s m
      if o.failed then (o.st, true)
      else if o.brk then (o.st, false)
      else sessionLoop w remote limit o.st rest

/-- Observable outcome of one session: the connection attempts it made (with
the timeout passed to `connect`), the messages it sent, and its result. -/
structure SessionOutcome where
  connects : List (SocketAddr × Nat)
  sent : List NetworkMessage
  result : Except Unit (List SocketAddr)
deriving Repr

/-- `main.rs::collect_initial_addresses`: connect with
`args.connection_timeout`, send the Version message built from
`args.user_agent`, then run the receive loop with cap `args.address_limit`. -/
def collect_initial_addresses (w : World) (env : Env)
    (remote_address local_address : SocketAddr) (args : Args) :
    SessionOutcome :=
  match w.conn remote_address with
  | none => ⟨[(remote_address, args.connection_timeout)], [], Except.error ()⟩
  | some frames =>
    match trySend w remote_address
        { peer_addresses := [], verack_sent := false, getaddr_sent := false,
          sent := [], sendCount := 0 }
        (NetworkMessage.version
          (build_version_message env remote_address local_address
            args.user_agent)) with
    | Except.error _ =>
      ⟨[(remote_address, args.connection_timeout)], [], Except.error ()⟩
    | Except.ok s1 =>
      ⟨[(remote_address, args.connection_timeout)],
        (sessionLoop w remote_address args.address_limit s1 frames).1.sent,
        if (sessionLoop w remote_address args.address_limit s1 frames).2
        then Except.error ()
        else Except.ok
          (sessionLoop w remote_address
            args.address_limit s1 frames).1.peer_addresses⟩

/-- The literal `Args` value `crawl_address` passes to its recursive
`collect_initial_addresses` call. -/
def crawlArgs : Args :=
  { remote_address := "", local_address := "", address_limit := 5000,
    connection_timeout := 10, user_agent := "" }

/-- `main.rs::crawl_address`: opens a connection with the fixed timeout 10
whose framed stream is bound but never used, then (only if that connect
succeeded) calls `collect_initial_addresses` — which opens a second connection
to the same peer — with the fixed `crawlArgs`. -/
def crawl_address (w : World) (env : Env)
    (address local_address : SocketAddr) : SessionOutcome :=
  match w.conn address with
  | none => ⟨[(address, 10)], [], Except.error ()⟩
  | some _ =>
    ⟨(address, 10) ::
        (collect_initial_addresses w env address local_address
          crawlArgs).connects,
      (collect_initial_addresses w env address local_address crawlArgs).sent,
      (collect_initial_addresses w env address local_address
        crawlArgs).result⟩

/-- The crawl bookkeeping owned by `main`: `all_addresses` (Visited) and
`addresses_to_crawl` (Frontier). -/
structure CrawlState where
  all_addresses : List SocketAddr
  addresses_to_crawl : List SocketAddr
deriving DecidableEq, Repr

/-- The body of one spawned task in `main`: `crawl_address`, with any error
caught at the task boundary and replaced by the empty set. -/
def taskResult (w : World) (env : Env)
    (local_address address : SocketAddr) : List SocketAddr :=
  match (crawl_address w env address local_address).result with
  | Except.ok l => l
  | Except.error _ => []

/-- `new_addresses` of one round: the union (as a `HashSet`) of the caught
results of every task of that round's batch. -/
def roundNew (w : World) (env : Env) (local_address : SocketAddr)
    (batch : List SocketAddr) : List SocketAddr :=
  batch.foldl (fun acc a => hsExtend acc (taskResult w env local_address a)) []

/-- One iteration of `main`'s `while` loop: drain the frontier into a batch,
run every task, push the addresses not already in Visited onto the frontier,
and extend Visited with all new addresses. -/
def crawlRound (w : World) (env : Env) (local_address : SocketAddr)
    (s : CrawlState) : CrawlState :=
  let nw := roundNew w env local_address s.addresses_to_crawl
  { all_addresses := hsExtend s.all_addresses nw,
    addresses_to_crawl :=
      nw.filter (fun a => decide (a ∉ s.all_addresses)) }

/-- Negation of `main`'s loop guard
`all_addresses.len() < address_limit && !addresses_to_crawl.is_empty()`. -/
def loopDone (limit : Nat) (s : CrawlState) : Prop :=
  ¬ (s.all_addresses.length < limit ∧ s.addresses_to_crawl ≠ [])

instance (limit : Nat) (s : CrawlState) : Decidable (loopDone limit s) := by
  unfold loopDone; infer_instance

/-- `main`'s `while` loop, with explicit fuel (termination is proved as a
theorem, not assumed). -/
def crawlLoop (w : World) (env : Env) (local_address : SocketAddr)
    (limit : Nat) : Nat → CrawlState → CrawlState
  | 0, s => s
  | fuel + 1, s =>
    if s.all_addresses.length < limit ∧ s.addresses_to_crawl ≠ [] then
      crawlLoop w env local_address limit fuel
        (crawlRound w env local_address s)
    else s

/-- The same loop, instrumented with a ghost log of every address drained
from the frontier (i.e. dequeued and crawled), in order. -/
def crawlLoopLog (w : World) (env : Env) (local_address : SocketAddr)
    (limit : Nat) :
    Nat → CrawlState → List SocketAddr → CrawlState × List SocketAddr
  | 0, s, log => (s, log)
  | fuel + 1, s, log =>
    if s.all_addresses.length < limit ∧ s.addresses_to_crawl ≠ [] then
      crawlLoopLog w env local_address limit fuel
        (crawlRound w env local_address s) (log ++ s.addresses_to_crawl)
    else (s, log)

/-- `main` after argument parsing: run the seed session (propagating its
failure), seed Visited and Frontier from its result, run the crawl loop, and
output up to `address_limit` collected addresses. -/
def mainRun (w : World) (env : Env)
    (remote_address local_address : SocketAddr) (args : Args) (fuel : Nat) :
    Except Unit (List SocketAddr) :=
  match (collect_initial_addresses w env remote_address local_address
      args).result with
  | Except.error e => Except.error e
  | Except.ok initial =>
    Except.ok
      ((crawlLoop w env local_address args.address_limit fuel
        { all_addresses := hsExtend [] initial,
          addresses_to_crawl := initial }).all_addresses.take
        args.address_limit)

/-- Every message sent on the wire during a run: the seed session's sends
followed by the sends of the session of each address dequeued from the
frontier, in dequeue order (derived from the ghost log of the loop). -/
def runSent (w : World) (env : Env)
    (remote_address local_address : SocketAddr) (args : Args) (fuel : Nat) :
    List NetworkMessage :=
  match (collect_initial_addresses w env remote_address local_address
      args).result with
  | Except.error _ =>
    (collect_initial_addresses w env remote_address local_address args).sent
  | Except.ok initial =>
    (collect_initial_addresses w env remote_address local_address args).sent
      ++ ((crawlLoopLog w env local_address args.address_limit fuel
            { all_addresses := hsExtend [] initial,
              addresses_to_crawl := initial } []).2).flatMap
          (fun a => (crawl_address w env a local_address).sent)

/-- `true` unless the message is a Version whose user-agent field differs
from `ua`; used to state "every Version sent embeds `ua`". -/
def versionUsesAgent (ua : String) : NetworkMessage → Bool
  | NetworkMessage.version v => v.user_agent = ua
  | _ => true

instance {ε α : Type} [DecidableEq ε] [DecidableEq α] :
    DecidableEq (Except ε α) := fun x y =>
  match x, y with
  | Except.ok a, Except.ok b =>
    if h : a = b then isTrue (by rw [h]) else isFalse (by simp [h])
  | Except.ok _, Except.error _ => isFalse (by simp)
  | Except.error _, Except.ok _ => isFalse (by simp)
  | Except.error e, Except.error f =>
    if h : e = f then isTrue (by rw [h]) else isFalse (by simp [h])

/-! ## Lemmas about the `HashSet` model -/

theorem mem_hsInsert {x : SocketAddr} {l : List SocketAddr}
    {a : SocketAddr} : x ∈ hsInsert l a ↔ x ∈ l ∨ x = a := by
  unfold hsInsert
  split
  · next ha =>
    constructor
    · exact Or.inl
    · rintro (hx | rfl)
      · exact hx
      · exact ha
  · simp

theorem hsInsert_nodup {l : List SocketAddr} {a : SocketAddr}
    (h : l.Nodup) : (hsInsert l a).Nodup := by
  unfold hsInsert
  split
  · exact h
  · next ha =>
    rw [List.nodup_append]
    refine ⟨h, List.nodup_singleton a, ?_⟩
    intro x hx hx2
    simp only [List.mem_singleton] at hx2
    subst hx2
    exact ha hx

theorem mem_hsExtend {x : SocketAddr} :
    ∀ (xs l : List SocketAddr), x ∈ hsExtend l xs ↔ x ∈ l ∨ x ∈ xs
  | [], l => by simp [hsExtend]
  | y :: ys, l => by
    show x ∈ hsExtend (hsInsert l y) ys ↔ _
    rw [mem_hsExtend ys (hsInsert l y)]
    rw [mem_hsInsert]
    simp only [List.mem_cons]
    tauto

theorem hsExtend_nodup :
    ∀ (xs l : List SocketAddr), l.Nodup → (hsExtend l xs).Nodup
  | [], _, h => h
  | y :: ys, l, h => hsExtend_nodup ys (hsInsert l y) (hsInsert_nodup h)

theorem subset_hsExtend (l xs : List SocketAddr) : l ⊆ hsExtend l xs :=
  fun _ hx => (mem_hsExtend xs l).mpr (Or.inl hx)

theorem addrFold_nodup :
    ∀ (entries : List (Nat × Address)) (acc : List SocketAddr),
      acc.Nodup → (addrFold acc entries).Nodup
  | [], _, h => h
  | e :: es, acc, h => by
    show (addrFold (if is_ipv4 e.2 then _ else acc) es).Nodup
    split
    · split
      · exact addrFold_nodup es _ (hsInsert_nodup h)
      · exact addrFold_nodup es acc h
    · exact addrFold_nodup es acc h

/-! ## Lemmas about one session -/

theorem trySend_ok_peer {w : World} {r : SocketAddr} {s : SessState}
    {m : NetworkMessage} {s2 : SessState}
    (h : trySend w r s m = Except.ok s2) :
    s2.peer_addresses = s.peer_addresses := by
  unfold trySend at h
  split at h
  · cases h; rfl
  · cases h

theorem trySend_ok_sent {w : World} {r : SocketAddr} {s : SessState}
    {m : NetworkMessage} {s2 : SessState}
    (h : trySend w r s m = Except.ok s2) :
    s2.sent = s.sent ++ [m] := by
  unfold trySend at h
  split at h
  · cases h; rfl
  · cases h

theorem processMsg_peer {w : World} {r : SocketAddr} {k : Nat}
    {s : SessState} {m : NetworkMessage} :
    ((processMsg w r k s m).st).peer_addresses = s.peer_addresses ∨
    ∃ entries, m = NetworkMessage.addr entries ∧
      ((processMsg w r k s m).st).peer_addresses =
        addrFold s.peer_addresses entries := by
  cases m with
  | version v =>
    left
    simp only [processMsg]
    split
    · rfl
    · next sa hva =>
      have hpa : sa.peer_addresses = s.peer_addresses := by
        split at hva
        · cases hva; rfl
        · exact trySend_ok_peer hva
      split
      · simpa using hpa
      · next sb hgb =>
        have hpb : sb.peer_addresses = sa.peer_addresses := by
          split at hgb
          · cases hgb; rfl
          · have h2 := trySend_ok_peer hgb
            exact h2
        simpa [hpb] using hpa
  | addr entries => exact Or.inr ⟨entries, rfl, rfl⟩
  | verack => exact Or.inl rfl
  | getaddr => exact Or.inl rfl
  | other => exact Or.inl rfl

theorem processMsg_nodup {w : World} {r : SocketAddr} {k : Nat}
    {s : SessState} {m : NetworkMessage}
    (h : s.peer_addresses.Nodup) :
    ((processMsg w r k s m).st).peer_addresses.Nodup := by
  rcases @processMsg_peer w r k s m with
    hp | ⟨entries, _, hp⟩
  · rw [hp]; exact h
  · rw [hp]; exact addrFold_nodup entries _ h

theorem sessionLoop_nodup {w : World} {r : SocketAddr} {k : Nat} :
    ∀ (fs : List (Except Unit NetworkMessage)) (s : SessState),
      s.peer_addresses.Nodup → ((sessionLoop w r k s fs).1).peer_addresses.Nodup
  | [], _, h => h
  | f :: rest, s, h => by
    cases f with
    | error e => exact sessionLoop_nodup rest s h
    | ok m =>
      show ((if (processMsg w r k s m).failed then _
        else if (processMsg w r k s m).brk then _
        else sessionLoop w r k (processMsg w r k s m).st rest).1).peer_addresses.Nodup
      split
      · exact processMsg_nodup h
      · split
        · exact processMsg_nodup h
        · exact sessionLoop_nodup rest _ (processMsg_nodup h)

theorem processMsg_sent_mem {w : World} {r : SocketAddr} {k : Nat}
    {s : SessState} {m : NetworkMessage} {x : NetworkMessage}
    (h : x ∈ ((processMsg w r k s m).st).sent) :
    x ∈ s.sent ∨ x = NetworkMessage.verack ∨ x = NetworkMessage.getaddr := by
  cases m with
  | version v =>
    simp only [processMsg] at h
    split at h
    · exact Or.inl h
    · next sa hva =>
      have hsa : sa.sent = s.sent ∨ sa.sent = s.sent ++ [NetworkMessage.verack] := by
        split at hva
        · cases hva; exact Or.inl rfl
        · exact Or.inr (trySend_ok_sent hva)
      split at h
      · next hga =>
        simp only [StepOut.st] at h
        rcases hsa with hs1 | hs1 <;> rw [hs1] at h
        · exact Or.inl h
        · rcases List.mem_append.mp h with h2 | h2
          · exact Or.inl h2
          · simp only [List.mem_singleton] at h2; exact Or.inr (Or.inl h2)
      · next sb hgb =>
        have hsb : sb.sent = sa.sent ∨
            sb.sent = sa.sent ++ [NetworkMessage.getaddr] := by
          split at hgb
          · cases hgb; exact Or.inl rfl
          · have h2 := trySend_ok_sent hgb
            exact Or.inr h2
        simp only [StepOut.st] at h
        rcases hsb with hs2 | hs2 <;> rw [hs2] at h
        · rcases hsa with hs1 | hs1 <;> rw [hs1] at h
          · exact Or.inl h
          · rcases List.mem_append.mp h with h2 | h2
            · exact Or.inl h2
            · simp only [List.mem_singleton] at h2
              exact Or.inr (Or.inl h2)
        · rcases List.mem_append.mp h with h2 | h2
          · rcases hsa with hs1 | hs1 <;> rw [hs1] at h2
            · exact Or.inl h2
            · rcases List.mem_append.mp h2 with h3 | h3
              · exact Or.inl h3
              · simp only [List.mem_singleton] at h3
                exact Or.inr (Or.inl h3)
          · simp only [List.mem_singleton] at h2
            exact Or.inr (Or.inr h2)
  | addr entries => exact Or.inl h
  | verack => exact Or.inl h
  | getaddr => exact Or.inl h
  | other => exact Or.inl h

theorem sessionLoop_sent_mem {w : World} {r : SocketAddr} {k : Nat} :
    ∀ (fs : List (Except Unit NetworkMessage)) (s : SessState)
      (x : NetworkMessage), x ∈ ((sessionLoop w r k s fs).1).sent →
      x ∈ s.sent ∨ x = NetworkMessage.verack ∨ x = NetworkMessage.getaddr
  | [], _, _, h => Or.inl h
  | f :: rest, s, x, h => by
    cases f with
    | error e => exact sessionLoop_sent_mem rest s x h
    | ok m =>
      rw [show sessionLoop w r k s (Except.ok m :: rest) =
        (if (processMsg w r k s m).failed then ((processMsg w r k s m).st, true)
         else if (processMsg w r k s m).brk then ((processMsg w r k s m).st, false)
         else sessionLoop w r k (processMsg w r k s m).st rest) from rfl] at h
      split at h
      · exact processMsg_sent_mem h
      · split at h
        · exact processMsg_sent_mem h
        · rcases sessionLoop_sent_mem rest _ x h with h2 | h2
          · exact processMsg_sent_mem h2
          · exact Or.inr h2

theorem collect_connects (w : World) (env : Env) (r l : SocketAddr)
    (args : Args) : (collect_initial_addresses w env r l args).connects =
      [(r, args.connection_timeout)] := by
  unfold collect_initial_addresses
  split
  · rfl
  · split
    · rfl
    · rfl

theorem collect_result_cases (w : World) (env : Env) (r l : SocketAddr)
    (args : Args) :
    (collect_initial_addresses w env r l args).result = Except.error () ∨
    ∃ frames s1, w.conn r = some frames ∧
      trySend w r ⟨[], false, false, [], 0⟩
        (NetworkMessage.version
          (build_version_message env r l args.user_agent)) = Except.ok s1 ∧
      (sessionLoop w r args.address_limit s1 frames).2 = false ∧
      (collect_initial_addresses w env r l args).result =
        Except.ok
          (sessionLoop w r args.address_limit s1 frames).1.peer_addresses := by
  unfold collect_initial_addresses
  split
  · exact Or.inl rfl
  · next frames hfr =>
    split
    · exact Or.inl rfl
    · next s1 hs1 =>
      by_cases hb : (sessionLoop w r args.address_limit s1 frames).2
      · left
        simp [hb]
      · right
        exact ⟨frames, s1, hfr, hs1, by simpa using hb, by simp [hb]⟩

theorem collect_sent_cases (w : World) (env : Env) (r l : SocketAddr)
    (args : Args) :
    (collect_initial_addresses w env r l args).sent = [] ∨
    ∃ frames s1, w.conn r = some frames ∧
      trySend w r ⟨[], false, false, [], 0⟩
        (NetworkMessage.version
          (build_version_message env r l args.user_agent)) = Except.ok s1 ∧
      (collect_initial_addresses w env r l args).sent =
        (sessionLoop w r args.address_limit s1 frames).1.sent := by
  unfold collect_initial_addresses
  split
  · exact Or.inl rfl
  · next frames hfr =>
    split
    · exact Or.inl rfl
    · next s1 hs1 => exact Or.inr ⟨frames, s1, hfr, hs1, rfl⟩

theorem collect_result_nodup {w : World} {env : Env}
    {r l : SocketAddr} {args : Args} {xs : List SocketAddr}
    (h : (collect_initial_addresses w env r l args).result = Except.ok xs) :
    xs.Nodup := by
  rcases collect_result_cases w env r l args with
    hc | ⟨frames, s1, _, hs1, _, hc⟩
  · rw [hc] at h; cases h
  · rw [hc] at h
    cases h
    have hp1 : s1.peer_addresses = [] := by
      have h2 := trySend_ok_peer hs1
      exact h2
    exact sessionLoop_nodup frames s1 (by rw [hp1]; exact List.nodup_nil)

theorem collect_sent_version {w : World} {env : Env}
    {r l : SocketAddr} {args : Args} {m : NetworkMessage}
    (h : m ∈ (collect_initial_addresses w env r l args).sent) :
    m = NetworkMessage.version
        (build_version_message env r l args.user_agent) ∨
      m = NetworkMessage.verack ∨ m = NetworkMessage.getaddr := by
  rcases collect_sent_cases w env r l args with
    hc | ⟨frames, s1, _, hs1, hc⟩
  · rw [hc] at h; cases h
  · rw [hc] at h
    have hsent : s1.sent =
        [NetworkMessage.version
          (build_version_message env r l args.user_agent)] := by
      have h2 := trySend_ok_sent hs1
      exact h2
    rcases sessionLoop_sent_mem frames s1 m h with h2 | h2
    · rw [hsent] at h2
      simp only [List.mem_singleton] at h2
      exact Or.inl h2
    · exact Or.inr h2

theorem crawl_result_nodup {w : World} {env : Env} {a l : SocketAddr}
    {xs : List SocketAddr}
    (h : (crawl_address w env a l).result = Except.ok xs) : xs.Nodup := by
  unfold crawl_address at h
  split at h
  · cases h
  · exact collect_result_nodup h

theorem taskResult_nodup (w : World) (env : Env)
    (l a : SocketAddr) : (taskResult w env l a).Nodup := by
  unfold taskResult
  split
  · next xs hxs => exact crawl_result_nodup hxs
  · exact List.nodup_nil

/-! ## Lemmas about the crawl loop -/

theorem mem_foldl_hsExtend {f : SocketAddr → List SocketAddr}
    {x : SocketAddr} :
    ∀ (batch : List SocketAddr) (acc : List SocketAddr),
      (x ∈ batch.foldl (fun acc a => hsExtend acc (f a)) acc ↔
        x ∈ acc ∨ ∃ a ∈ batch, x ∈ f a)
  | [], acc => by simp
  | b :: bs, acc => by
    rw [List.foldl_cons, mem_foldl_hsExtend bs (hsExtend acc (f b))]
    rw [mem_hsExtend]
    simp only [List.mem_cons]
    constructor
    · rintro ((hx | hx) | ⟨a, ha, hx⟩)
      · exact Or.inl hx
      · exact Or.inr ⟨b, Or.inl rfl, hx⟩
      · exact Or.inr ⟨a, Or.inr ha, hx⟩
    · rintro (hx | ⟨a, (rfl | ha), hx⟩)
      · exact Or.inl (Or.inl hx)
      · exact Or.inl (Or.inr hx)
      · exact Or.inr ⟨a, ha, hx⟩

theorem foldl_hsExtend_nodup {f : SocketAddr → List SocketAddr} :
    ∀ (batch : List SocketAddr) (acc : List SocketAddr), acc.Nodup →
      (batch.foldl (fun acc a => hsExtend acc (f a)) acc).Nodup
  | [], _, h => h
  | b :: bs, acc, h =>
    foldl_hsExtend_nodup bs (hsExtend acc (f b)) (hsExtend_nodup _ _ h)

theorem mem_roundNew {w : World} {env : Env} {l : SocketAddr}
    {batch : List SocketAddr} {x : SocketAddr} :
    x ∈ roundNew w env l batch ↔ ∃ a ∈ batch, x ∈ taskResult w env l a := by
  unfold roundNew
  rw [mem_foldl_hsExtend]
  simp

theorem roundNew_nodup (w : World) (env : Env) (l : SocketAddr)
    (batch : List SocketAddr) : (roundNew w env l batch).Nodup :=
  foldl_hsExtend_nodup batch [] List.nodup_nil

theorem crawlRound_all_mono {w : World} {env : Env} {l : SocketAddr}
    {s : CrawlState} {x : SocketAddr} (h : x ∈ s.all_addresses) :
    x ∈ (crawlRound w env l s).all_addresses :=
  subset_hsExtend _ _ h

theorem crawlRound_new_mem_all {w : World} {env : Env} {l : SocketAddr}
    {s : CrawlState} {x : SocketAddr}
    (h : x ∈ roundNew w env l s.addresses_to_crawl) :
    x ∈ (crawlRound w env l s).all_addresses :=
  (mem_hsExtend _ _).mpr (Or.inr h)

theorem crawlRound_frontier_fresh {w : World} {env : Env} {l : SocketAddr}
    {s : CrawlState} {x : SocketAddr}
    (h : x ∈ (crawlRound w env l s).addresses_to_crawl) :
    x ∉ s.all_addresses := by
  have h2 := List.mem_filter.mp h
  simpa using h2.2

theorem crawlRound_frontier_mem_new {w : World} {env : Env} {l : SocketAddr}
    {s : CrawlState} {x : SocketAddr}
    (h : x ∈ (crawlRound w env l s).addresses_to_crawl) :
    x ∈ roundNew w env l s.addresses_to_crawl :=
  (List.mem_filter.mp h).1

theorem crawlRound_frontier_sub_all {w : World} {env : Env} {l : SocketAddr}
    {s : CrawlState} {x : SocketAddr}
    (h : x ∈ (crawlRound w env l s).addresses_to_crawl) :
    x ∈ (crawlRound w env l s).all_addresses :=
  crawlRound_new_mem_all (crawlRound_frontier_mem_new h)

theorem crawlRound_frontier_nodup (w : World) (env : Env) (l : SocketAddr)
    (s : CrawlState) : (crawlRound w env l s).addresses_to_crawl.Nodup :=
  (roundNew_nodup w env l s.addresses_to_crawl).filter _

theorem crawlRound_all_nodup {w : World} {env : Env} {l : SocketAddr}
    {s : CrawlState} (h : s.all_addresses.Nodup) :
    (crawlRound w env l s).all_addresses.Nodup :=
  hsExtend_nodup _ _ h

theorem crawlLoop_all_mono {w : World} {env : Env} {l : SocketAddr}
    {k : Nat} :
    ∀ (fuel : Nat) (s : CrawlState) (x : SocketAddr),
      x ∈ s.all_addresses →
      x ∈ (crawlLoop w env l k fuel s).all_addresses
  | 0, _, _, h => h
  | fuel + 1, s, x, h => by
    show x ∈ (if s.all_addresses.length < k ∧ s.addresses_to_crawl ≠ []
      then crawlLoop w env l k fuel (crawlRound w env l s)
      else s).all_addresses
    split
    · exact crawlLoop_all_mono fuel _ x (crawlRound_all_mono h)
    · exact h

theorem crawlLoop_all_nodup {w : World} {env : Env} {l : SocketAddr}
    {k : Nat} :
    ∀ (fuel : Nat) (s : CrawlState), s.all_addresses.Nodup →
      (crawlLoop w env l k fuel s).all_addresses.Nodup
  | 0, _, h => h
  | fuel + 1, s, h => by
    show (if s.all_addresses.length < k ∧ s.addresses_to_crawl ≠ []
      then crawlLoop w env l k fuel (crawlRound w env l s)
      else s).all_addresses.Nodup
    split
    · exact crawlLoop_all_nodup fuel _ (crawlRound_all_nodup h)
    · exact h

theorem crawlLoop_of_done {w : World} {env : Env} {l : SocketAddr}
    {k : Nat} {s : CrawlState} (h : loopDone k s) :
    ∀ fuel, crawlLoop w env l k fuel s = s
  | 0 => rfl
  | fuel + 1 => by
    show (if s.all_addresses.length < k ∧ s.addresses_to_crawl ≠ []
      then crawlLoop w env l k fuel (crawlRound w env l s) else s) = s
    rw [if_neg h]

theorem crawlLoop_add (w : World) (env : Env) (l : SocketAddr) (k : Nat) :
    ∀ (f g : Nat) (s : CrawlState),
      crawlLoop w env l k (f + g) s = crawlLoop w env l k g
        (crawlLoop w env l k f s)
  | 0, g, s => by simp [crawlLoop]
  | f + 1, g, s => by
    rw [show f + 1 + g = (f + g) + 1 from by omega]
    show (if s.all_addresses.length < k ∧ s.addresses_to_crawl ≠ []
      then crawlLoop w env l k (f + g) (crawlRound w env l s) else s) =
      crawlLoop w env l k g
        (if s.all_addresses.length < k ∧ s.addresses_to_crawl ≠ []
         then crawlLoop w env l k f (crawlRound w env l s) else s)
    split
    · exact crawlLoop_add w env l k f g (crawlRound w env l s)
    · next hg => rw [crawlLoop_of_done hg g]

/-- The loop invariant over a finite universe `U`: Visited is duplicate-free,
Visited lies in `U`, and every frontier member is already Visited. -/
def CrawlInv (U : List SocketAddr) (s : CrawlState) : Prop :=
  s.all_addresses.Nodup ∧ (∀ x ∈ s.all_addresses, x ∈ U) ∧
    (∀ x ∈ s.addresses_to_crawl, x ∈ s.all_addresses)

theorem crawlInv_length_le {U : List SocketAddr} {s : CrawlState}
    (h : CrawlInv U s) : s.all_addresses.length ≤ U.length :=
  (h.1.subperm (fun x hx => h.2.1 x hx)).length_le

theorem crawlRound_inv {w : World} {env : Env} {l : SocketAddr}
    {U : List SocketAddr} {s : CrawlState}
    (hU : ∀ a, ∀ x ∈ taskResult w env l a, x ∈ U)
    (h : CrawlInv U s) : CrawlInv U (crawlRound w env l s) := by
  refine ⟨crawlRound_all_nodup h.1, ?_, ?_⟩
  · intro x hx
    rcases (mem_hsExtend _ _).mp hx with hx2 | hx2
    · exact h.2.1 x hx2
    · rcases mem_roundNew.mp hx2 with ⟨a, _, hx3⟩
      exact hU a x hx3
  · intro x hx
    exact crawlRound_frontier_sub_all hx

theorem length_lt_of_fresh {w : World} {env : Env} {l : SocketAddr}
    {s : CrawlState}
    (hnd : s.all_addresses.Nodup)
    (hne : (crawlRound w env l s).addresses_to_crawl ≠ []) :
    s.all_addresses.length < (crawlRound w env l s).all_addresses.length := by
  rcases List.exists_mem_of_ne_nil _ hne with ⟨x, hx⟩
  have hxnot : x ∉ s.all_addresses := crawlRound_frontier_fresh hx
  have hxall : x ∈ (crawlRound w env l s).all_addresses :=
    crawlRound_frontier_sub_all hx
  have hsub : (x :: s.all_addresses) ⊆ (crawlRound w env l s).all_addresses := by
    intro y hy
    rcases List.mem_cons.mp hy with rfl | hy2
    · exact hxall
    · exact crawlRound_all_mono hy2
  have hnd2 : (x :: s.all_addresses).Nodup := List.nodup_cons.mpr ⟨hxnot, hnd⟩
  have := (hnd2.subperm hsub).length_le
  simpa using this

theorem crawlLoop_terminates_aux {w : World} {env : Env} {l : SocketAddr}
    {k : Nat} {U : List SocketAddr}
    (hU : ∀ a, ∀ x ∈ taskResult w env l a, x ∈ U) :
    ∀ (fuel : Nat) (s : CrawlState), CrawlInv U s →
      U.length + 1 ≤ fuel + s.all_addresses.length →
      loopDone k (crawlLoop w env l k fuel s)
  | 0, s, hinv, hfuel => by
    have := crawlInv_length_le hinv
    omega
  | fuel + 1, s, hinv, hfuel => by
    show loopDone k
      (if s.all_addresses.length < k ∧ s.addresses_to_crawl ≠ []
       then crawlLoop w env l k fuel (crawlRound w env l s) else s)
    by_cases hg : s.all_addresses.length < k ∧ s.addresses_to_crawl ≠ []
    · rw [if_pos hg]
      by_cases hne : (crawlRound w env l s).addresses_to_crawl = []
      · rw [crawlLoop_of_done (by exact fun hc => hc.2 hne) fuel]
        exact fun hc => hc.2 hne
      · have hlt := @length_lt_of_fresh w env l s hinv.1 hne
        exact crawlLoop_terminates_aux hU fuel _ (crawlRound_inv hU hinv)
          (by omega)
    · rw [if_neg hg]
      exact hg

/-- Ghost invariant tying the dequeue log to the crawl state: the log is
duplicate-free, logged addresses are Visited and are never in the current
frontier, the frontier is duplicate-free, and the frontier is Visited. -/
def crawlLogInv (s : CrawlState) (log : List SocketAddr) : Prop :=
  log.Nodup ∧ s.addresses_to_crawl.Nodup ∧
    (∀ x ∈ log, x ∈ s.all_addresses) ∧
    (∀ x ∈ s.addresses_to_crawl, x ∈ s.all_addresses) ∧
    (∀ x ∈ log, x ∉ s.addresses_to_crawl)

theorem crawlRound_logInv {w : World} {env : Env} {l : SocketAddr}
    {s : CrawlState} {log : List SocketAddr} (h : crawlLogInv s log) :
    crawlLogInv (crawlRound w env l s) (log ++ s.addresses_to_crawl) := by
  obtain ⟨h1, h2, h3, h4, h5⟩ := h
  refine ⟨?_, crawlRound_frontier_nodup w env l s, ?_, ?_, ?_⟩
  · rw [List.nodup_append]
    exact ⟨h1, h2, fun x hx hy => h5 x hx hy⟩
  · intro x hx
    rcases List.mem_append.mp hx with hx2 | hx2
    · exact crawlRound_all_mono (h3 x hx2)
    · exact crawlRound_all_mono (h4 x hx2)
  · intro x hx
    exact crawlRound_frontier_sub_all hx
  · intro x hx hx2
    have hin : x ∈ s.all_addresses := by
      rcases List.mem_append.mp hx with hx3 | hx3
      · exact h3 x hx3
      · exact h4 x hx3
    exact crawlRound_frontier_fresh hx2 hin

theorem crawlLoopLog_nodup {w : World} {env : Env} {l : SocketAddr}
    {k : Nat} :
    ∀ (fuel : Nat) (s : CrawlState) (log : List SocketAddr),
      crawlLogInv s log → ((crawlLoopLog w env l k fuel s log).2).Nodup
  | 0, _, _, h => h.1
  | fuel + 1, s, log, h => by
    show ((if s.all_addresses.length < k ∧ s.addresses_to_crawl ≠ []
      then crawlLoopLog w env l k fuel (crawlRound w env l s)
        (log ++ s.addresses_to_crawl)
      else (s, log)).2).Nodup
    split
    · exact crawlLoopLog_nodup fuel _ _ (crawlRound_logInv h)
    · exact h.1

theorem crawlLoopLog_fst {w : World} {env : Env} {l : SocketAddr}
    {k : Nat} :
    ∀ (fuel : Nat) (s : CrawlState) (log : List SocketAddr),
      (crawlLoopLog w env l k fuel s log).1 = crawlLoop w env l k fuel s
  | 0, _, _ => rfl
  | fuel + 1, s, log => by
    show (if s.all_addresses.length < k ∧ s.addresses_to_crawl ≠ []
      then crawlLoopLog w env l k fuel (crawlRound w env l s)
        (log ++ s.addresses_to_crawl)
      else (s, log)).1 =
      (if s.all_addresses.length < k ∧ s.addresses_to_crawl ≠ []
       then crawlLoop w env l k fuel (crawlRound w env l s) else s)
    split
    · exact crawlLoopLog_fst fuel _ _
    · rfl

theorem crawl_result_conn_none {w : World} {env : Env} {a l : SocketAddr}
    (h : w.conn a = none) :
    (crawl_address w env a l).result = Except.error () := by
  unfold crawl_address
  rw [h]

theorem taskResult_conn_none {w : World} {env : Env} {l a : SocketAddr}
    (h : w.conn a = none) : taskResult w env l a = [] := by
  unfold taskResult
  rw [crawl_result_conn_none h]

theorem taskResult_of_error {w : World} {env : Env} {l a : SocketAddr}
    (h : ¬ (crawl_address w env a l).result.isOk = true) :
    taskResult w env l a = [] := by
  unfold taskResult
  split
  · next xs hxs => rw [hxs] at h; simp [Except.isOk, Except.toBool] at h
  · rfl

theorem collect_sent_agent (w : World) (env : Env) (r l : SocketAddr)
    (args : Args) :
    ∀ m ∈ (collect_initial_addresses w env r l args).sent,
      versionUsesAgent args.user_agent m = true := by
  intro m hm
  rcases collect_sent_version hm with rfl | rfl | rfl <;>
    simp [versionUsesAgent, build_version_message, VersionMessage.new]

/-! ## Concrete fixtures used by witnesses and counterexamples -/

def addrA : SocketAddr := SocketAddr.v4 1 8333
def addrB : SocketAddr := SocketAddr.v4 2 8333
def addrC : SocketAddr := SocketAddr.v4 3 8333
def seedAddr : SocketAddr := SocketAddr.v4 9 8333
def localAddr : SocketAddr := SocketAddr.v4 0 8333
def env0 : Env := ⟨1700000000, 42⟩

/-- The frames the seed of `world1` delivers: one address-list message
carrying `addrA`, `addrB`, `addrC`. -/
def framesSeed : List (Except Unit NetworkMessage) :=
  [Except.ok (NetworkMessage.addr
    [(0, Address.new addrA 0), (0, Address.new addrB 0),
      (0, Address.new addrC 0)])]

/-- A world where only the seed is reachable; it serves three addresses. -/
def world1 : World :=
  { conn := fun a => if a = seedAddr then some framesSeed else none,
    sendOk := fun _ _ => true }

def args1 : Args := ⟨"", "", 2, 7, "/Satoshi:25.0.0/"⟩

/-- A world where the seed serves one address (`addrA`) and `addrA` is
reachable but silent, so the crawl loop actually crawls `addrA`. -/
def world2 : World :=
  { conn := fun a =>
      if a = seedAddr then
        some [Except.ok (NetworkMessage.addr [(0, Address.new addrA 0)])]
      else if a = addrA then some [] else none,
    sendOk := fun _ _ => true }

def args2 : Args := ⟨"", "", 5, 7, "/Satoshi:25.0.0/"⟩

/-! ## The claims -/

/-- C9 counterexample: `build_version_message` is not a pure function of
(receiver, sender, user-agent) — it reads the wall clock and the RNG, so two
calls under different ambient environments return different values. -/
theorem claim_C9_counterexample :
    build_version_message ⟨0, 0⟩ addrA addrB "/Satoshi:25.0.0/" ≠
      build_version_message ⟨0, 1⟩ addrA addrB "/Satoshi:25.0.0/" := by
  decide

/-- C9 (amended): `build_version_message` is deterministic given the ambient
clock reading and RNG draw: every field other than `timestamp` and `nonce`
depends only on the receiver, sender and user-agent arguments, while
`timestamp` and `nonce` come from the environment (wall clock and RNG). -/
theorem claim_C9_amended (e1 e2 : Env) (r s2 : SocketAddr) (ua : String) :
    (build_version_message e1 r s2 ua).version =
      (build_version_message e2 r s2 ua).version ∧
    (build_version_message e1 r s2 ua).services =
      (build_version_message e2 r s2 ua).services ∧
    (build_version_message e1 r s2 ua).receiver =
      (build_version_message e2 r s2 ua).receiver ∧
    (build_version_message e1 r s2 ua).sender =
      (build_version_message e2 r s2 ua).sender ∧
    (build_version_message e1 r s2 ua).user_agent =
      (build_version_message e2 r s2 ua).user_agent ∧
    (build_version_message e1 r s2 ua).start_height =
      (build_version_message e2 r s2 ua).start_height ∧
    (build_version_message e1 r s2 ua).timestamp = e1.timestamp ∧
    (build_version_message e1 r s2 ua).nonce = e1.nonce :=
  ⟨rfl, rfl, rfl, rfl, rfl, rfl, rfl, rfl⟩

/-- C6: within one session's receive loop, a decode error on one frame is
transparent: the session over any frame stream with an erroneous frame
spliced in is identical (same final state — hence same collected addresses —
and same success flag) to the session over the stream without it, so the
session is not terminated, nothing already collected is discarded, and later
valid frames are still processed. -/
theorem claim_C6 (w : World) (remote : SocketAddr) (limit : Nat) :
    ∀ (xs ys : List (Except Unit NetworkMessage)) (s : SessState),
      sessionLoop w remote limit s (xs ++ Except.error () :: ys) =
        sessionLoop w remote limit s (xs ++ ys)
  | [], _, _ => rfl
  | (Except.error e) :: xs, ys, s => claim_C6 w remote limit xs ys s
  | (Except.ok m) :: xs, ys, s => by
    simp only [List.cons_append, sessionLoop]
    split
    · rfl
    · split
      · rfl
      · exact claim_C6 w remote limit xs ys (processMsg w remote limit s m).st

/-- C7: the configured `connection_timeout` bounds only the seed connection
(`collect_initial_addresses` connects exactly once, with
`args.connection_timeout`), while every connection opened by `crawl_address`
during recursive crawling uses the fixed constant 10, independent of any
configured value (`crawl_address` does not even receive the configuration). -/
theorem claim_C7 (w : World) (env : Env)
    (remote local_address address : SocketAddr) (args : Args) :
    (collect_initial_addresses w env remote local_address args).connects =
      [(remote, args.connection_timeout)] ∧
    (∀ p ∈ (crawl_address w env address local_address).connects, p.2 = 10) := by
  refine ⟨collect_connects w env remote local_address args, ?_⟩
  intro p hp
  unfold crawl_address at hp
  split at hp
  · simp only [List.mem_singleton] at hp
    rw [hp]
  · rw [show ((address, 10) ::
        (collect_initial_addresses w env address local_address
          crawlArgs).connects : List (SocketAddr × Nat)) =
        (⟨(address, 10) ::
          (collect_initial_addresses w env address local_address
            crawlArgs).connects,
          (collect_initial_addresses w env address local_address
            crawlArgs).sent,
          (collect_initial_addresses w env address local_address
            crawlArgs).result⟩ : SessionOutcome).connects from rfl] at hp
    rw [collect_connects] at hp
    simp only [List.mem_cons, List.mem_singleton] at hp
    rcases hp with rfl | rfl | h0
    · rfl
    · rfl
    · cases h0

/-- C7 witness at a concrete world: the seed connect uses the configured
timeout 7 and a crawl connection pair entry has timeout 10. -/
theorem claim_C7_witness :
    (collect_initial_addresses world1 env0 seedAddr localAddr args1).connects =
      [(seedAddr, 7)] ∧
    ((seedAddr, 10) : SocketAddr × Nat).2 = 10 := by
  obtain ⟨h1, h2⟩ := claim_C7 world1 env0 seedAddr localAddr seedAddr args1
  exact ⟨h1, h2 (seedAddr, 10) (by decide)⟩

/-- C10: per attempt on a non-seed address, `crawl_address` opens two
connections with timeout 10 — the first one carries no traffic (all sent
messages and the result come from the inner session alone), the session runs
only if the connection attempts succeed (a failing connect yields an error
outcome with a single connect and no traffic), and the recursive session runs
with the fixed `Args` whose address cap is 5000 and timeout 10, not the
configured ones. -/
theorem claim_C10 (w : World) (env : Env)
    (address local_address : SocketAddr) :
    (w.conn address = none →
      crawl_address w env address local_address =
        ⟨[(address, 10)], [], Except.error ()⟩) ∧
    (∀ frames, w.conn address = some frames →
      (crawl_address w env address local_address).connects =
          [(address, 10), (address, 10)] ∧
      (crawl_address w env address local_address).sent =
        (collect_initial_addresses w env address local_address
          crawlArgs).sent ∧
      (crawl_address w env address local_address).result =
        (collect_initial_addresses w env address local_address
          crawlArgs).result) ∧
    crawlArgs.address_limit = 5000 ∧ crawlArgs.connection_timeout = 10 := by
  refine ⟨?_, ?_, rfl, rfl⟩
  · intro h
    unfold crawl_address
    rw [h]
  · intro frames h
    unfold crawl_address
    rw [h]
    refine ⟨?_, rfl, rfl⟩
    show (address, 10) ::
      (collect_initial_addresses w env address local_address
        crawlArgs).connects = _
    rw [collect_connects]
    rfl

/-- C10 witness: in `world1`, crawling the unreachable `addrB` gives one
connect and an error, while crawling the reachable seed opens two
connections with timeout 10. -/
theorem claim_C10_witness :
    crawl_address world1 env0 addrB localAddr =
      ⟨[(addrB, 10)], [], Except.error ()⟩ ∧
    (crawl_address world1 env0 seedAddr localAddr).connects =
      [(seedAddr, 10), (seedAddr, 10)] := by
  refine ⟨(claim_C10 world1 env0 addrB localAddr).1 (by decide), ?_⟩
  exact ((claim_C10 world1 env0 seedAddr localAddr).2.1 framesSeed
    (by decide)).1

/-- C4: in the session receive loop, receiving Version in the initial state
(neither flag set, sends accepted) sends Verack and then immediately GetAddr
in the same step — without waiting for the peer's own Verack and with no
other action in between; GetAddr is sent only in reaction to a Version; and
any message other than Version and an address list leaves the state unchanged
and sends nothing. -/
theorem claim_C4 (w : World) (remote : SocketAddr) (limit : Nat)
    (s : SessState) (m : NetworkMessage)
    (hv : s.verack_sent = false) (hg : s.getaddr_sent = false)
    (hs1 : w.sendOk remote s.sendCount = true)
    (hs2 : w.sendOk remote (s.sendCount + 1) = true) :
    (∀ v, (processMsg w remote limit s (NetworkMessage.version v)).st.sent =
        s.sent ++ [NetworkMessage.verack, NetworkMessage.getaddr] ∧
      (processMsg w remote limit s (NetworkMessage.version v)).failed =
        false) ∧
    (NetworkMessage.getaddr ∈ (processMsg w remote limit s m).st.sent →
      NetworkMessage.getaddr ∈ s.sent ∨ ∃ v, m = NetworkMessage.version v) ∧
    ((∀ v, m ≠ NetworkMessage.version v) →
      (∀ es, m ≠ NetworkMessage.addr es) →
      processMsg w remote limit s m = ⟨s, false, false⟩) := by
  refine ⟨?_, ?_, ?_⟩
  · intro v
    simp [processMsg, trySend, hv, hg, hs1, hs2]
  · intro h
    cases m with
    | version v => exact Or.inr ⟨v, rfl⟩
    | addr entries => exact Or.inl h
    | verack => exact Or.inl h
    | getaddr => exact Or.inl h
    | other => exact Or.inl h
  · intro h1 h2
    cases m with
    | version v => exact absurd rfl (h1 v)
    | addr entries => exact absurd rfl (h2 entries)
    | verack => rfl
    | getaddr => rfl
    | other => rfl

/-- C4 witness at the fresh session state. -/
theorem claim_C4_witness :
    (processMsg world1 seedAddr 50
        ⟨[], false, false, [], 0⟩ (NetworkMessage.version
          (build_version_message env0 localAddr seedAddr ""))).st.sent =
      [NetworkMessage.verack, NetworkMessage.getaddr] ∧
    processMsg world1 seedAddr 50 ⟨[], false, false, [], 0⟩
      NetworkMessage.other = ⟨⟨[], false, false, [], 0⟩, false, false⟩ := by
  obtain ⟨h1, _, h3⟩ := claim_C4 world1 seedAddr 50
    ⟨[], false, false, [], 0⟩ NetworkMessage.other rfl rfl (by decide)
    (by decide)
  refine ⟨?_, h3 (fun v h => by cases h) (fun es h => by cases h)⟩
  exact (h1 (build_version_message env0 localAddr seedAddr "")).1

/-- C8 counterexample: with the configured user agent of `args2`, a run over
`world2` (whose seed hands out `addrA`, which is then crawled recursively)
sends a Version message whose user-agent field is not the configured one —
the recursive session builds its Version from the empty string. -/
theorem claim_C8_counterexample :
    ¬ (∀ m ∈ runSent world2 env0 seedAddr localAddr args2 3,
        versionUsesAgent args2.user_agent m = true) := by
  decide

/-- C8 (amended): the seed session embeds the configured user agent in its
outbound Version message, but every recursive per-peer session sends Version
messages whose user-agent field is the empty string (the hard-coded `Args` of
`crawl_address`), not the configured one. -/
theorem claim_C8_amended (w : World) (env : Env)
    (remote local_address address : SocketAddr) (args : Args) :
    (∀ m ∈ (collect_initial_addresses w env remote local_address args).sent,
      versionUsesAgent args.user_agent m = true) ∧
    (∀ m ∈ (crawl_address w env address local_address).sent,
      versionUsesAgent "" m = true) := by
  refine ⟨collect_sent_agent w env remote local_address args, ?_⟩
  intro m hm
  unfold crawl_address at hm
  split at hm
  · cases hm
  · exact collect_sent_agent w env address local_address crawlArgs m hm

/-- C8 amended witness: concrete Version messages sent by the seed session
and by a recursive session in `world2`. -/
theorem claim_C8_amended_witness :
    versionUsesAgent args2.user_agent
      (NetworkMessage.version
        (build_version_message env0 seedAddr localAddr
          args2.user_agent)) = true ∧
    versionUsesAgent ""
      (NetworkMessage.version
        (build_version_message env0 addrA localAddr "")) = true := by
  obtain ⟨h1, h2⟩ := claim_C8_amended world2 env0 seedAddr localAddr addrA
    args2
  exact ⟨h1 _ (by decide), h2 _ (by decide)⟩

theorem foldl_filter_ok {w : World} {env : Env} {l : SocketAddr} :
    ∀ (batch : List SocketAddr) (acc : List SocketAddr),
      batch.foldl (fun acc a => hsExtend acc (taskResult w env l a)) acc =
      (batch.filter
        (fun a => (crawl_address w env a l).result.isOk)).foldl
        (fun acc a => hsExtend acc (taskResult w env l a)) acc
  | [], _ => rfl
  | b :: bs, acc => by
    rw [List.filter_cons]
    by_cases hb : (crawl_address w env b l).result.isOk = true
    · rw [hb, if_pos rfl, List.foldl_cons, List.foldl_cons]
      exact foldl_filter_ok bs _
    · rw [Bool.not_eq_true] at hb
      rw [hb, if_neg (by simp), List.foldl_cons,
        taskResult_of_error (by simp [hb])]
      exact foldl_filter_ok bs acc

/-- C3: the run errors exactly when the seed session errors (so every later
failure never surfaces); a failing per-peer task is replaced by the empty
result at the task boundary; and a round's merged result is unchanged if the
failing peers are dropped from the batch — the round continues with the
others' contributions. -/
theorem claim_C3 (w : World) (env : Env)
    (remote local_address : SocketAddr) (args : Args) (fuel : Nat) :
    ((mainRun w env remote local_address args fuel).isOk =
      ((collect_initial_addresses w env remote local_address
        args).result).isOk) ∧
    (∀ address, (crawl_address w env address local_address).result =
        Except.error () → taskResult w env local_address address = []) ∧
    (∀ batch, roundNew w env local_address batch =
      roundNew w env local_address (batch.filter
        (fun a => (crawl_address w env a local_address).result.isOk))) := by
  refine ⟨?_, ?_, ?_⟩
  · unfold mainRun
    split
    · next e heq => rw [heq]
    · next initial heq =>
      rw [heq]
      rfl
  · intro address h
    unfold taskResult
    rw [h]
  · intro batch
    unfold roundNew
    exact foldl_filter_ok batch []

/-- C3 witness: in `world2` the unreachable `addrB` contributes nothing and
the run's success matches the seed session's success. -/
theorem claim_C3_witness :
    taskResult world2 env0 localAddr addrB = [] ∧
    (mainRun world2 env0 seedAddr localAddr args2 3).isOk =
      ((collect_initial_addresses world2 env0 seedAddr localAddr
        args2).result).isOk := by
  obtain ⟨h1, h2, _⟩ := claim_C3 world2 env0 seedAddr localAddr args2 3
  exact ⟨h2 addrB (by decide), h1⟩

/-- C1: whenever the seed session succeeds, the run succeeds and outputs a
duplicate-free list of at most `address_limit` addresses; and when the seed
session already yields at least `address_limit` addresses, the output has
exactly `address_limit` of them. -/
theorem claim_C1 (w : World) (env : Env)
    (remote local_address : SocketAddr) (args : Args) (fuel : Nat)
    (initial : List SocketAddr)
    (h : (collect_initial_addresses w env remote local_address args).result =
      Except.ok initial) :
    ∃ out, mainRun w env remote local_address args fuel = Except.ok out ∧
      out.Nodup ∧ out.length ≤ args.address_limit ∧
      (args.address_limit ≤ initial.length →
        out.length = args.address_limit) := by
  have hnd0 : initial.Nodup := collect_result_nodup h
  unfold mainRun
  rw [h]
  refine ⟨_, rfl, ?_, ?_, ?_⟩
  · exact (List.take_sublist _ _).nodup
      (crawlLoop_all_nodup fuel _ (hsExtend_nodup initial [] List.nodup_nil))
  · rw [List.length_take]
    exact Nat.min_le_left _ _
  · intro hlim
    have hsub : initial ⊆ (crawlLoop w env local_address args.address_limit
        fuel ⟨hsExtend [] initial, initial⟩).all_addresses := by
      intro x hx
      exact crawlLoop_all_mono fuel _ x ((mem_hsExtend _ _).mpr (Or.inr hx))
    have hlen := (hnd0.subperm hsub).length_le
    rw [List.length_take]
    omega

/-- C1 witness, mirroring the spec example: the seed yields three addresses,
the limit is 2, and the output has exactly 2 addresses. -/
theorem claim_C1_witness :
    ∃ out, mainRun world1 env0 seedAddr localAddr args1 5 = Except.ok out ∧
      out.Nodup ∧ out.length ≤ args1.address_limit ∧ out.length = 2 := by
  obtain ⟨out, h1, h2, h3, h4⟩ := claim_C1 world1 env0 seedAddr localAddr
    args1 5 [addrA, addrB, addrC] (by decide)
  exact ⟨out, h1, h2, h3, h4 (by decide)⟩

/-- C2: Visited only grows, both per round and across the whole loop; after a
round every address returned by the round's sessions is Visited; a round's
new frontier holds only addresses that were not Visited before the round; and
the ghost dequeue log of the loop is duplicate-free — every address is
dequeued from the frontier and crawled at most once per run (with the log
instrumentation provably not changing the loop's state). -/
theorem claim_C2 (w : World) (env : Env) (local_address : SocketAddr)
    (limit fuel : Nat) (s0 : CrawlState)
    (h1 : s0.addresses_to_crawl.Nodup)
    (h2 : ∀ x ∈ s0.addresses_to_crawl, x ∈ s0.all_addresses) :
    (∀ s : CrawlState, ∀ x ∈ s.all_addresses,
      x ∈ (crawlRound w env local_address s).all_addresses) ∧
    (∀ x ∈ s0.all_addresses,
      x ∈ (crawlLoop w env local_address limit fuel s0).all_addresses) ∧
    (∀ s : CrawlState,
      ∀ x ∈ roundNew w env local_address s.addresses_to_crawl,
      x ∈ (crawlRound w env local_address s).all_addresses) ∧
    (∀ s : CrawlState,
      ∀ x ∈ (crawlRound w env local_address s).addresses_to_crawl,
      x ∉ s.all_addresses) ∧
    ((crawlLoopLog w env local_address limit fuel s0 []).2).Nodup ∧
    (crawlLoopLog w env local_address limit fuel s0 []).1 =
      crawlLoop w env local_address limit fuel s0 := by
  refine ⟨?_, ?_, ?_, ?_, ?_, crawlLoopLog_fst fuel s0 []⟩
  · intro s x hx
    exact crawlRound_all_mono hx
  · intro x hx
    exact crawlLoop_all_mono fuel s0 x hx
  · intro s x hx
    exact crawlRound_new_mem_all hx
  · intro s x hx
    exact crawlRound_frontier_fresh hx
  · exact crawlLoopLog_nodup fuel s0 []
      ⟨List.nodup_nil, h1, fun x hx => absurd hx (List.not_mem_nil x), h2,
        fun x hx => absurd hx (List.not_mem_nil x)⟩

/-- C2 witness at a concrete crawl starting from `addrA` in `world2`. -/
theorem claim_C2_witness :
    ((crawlLoopLog world2 env0 localAddr 5 3
      ⟨[addrA], [addrA]⟩ []).2).Nodup ∧
    (crawlLoopLog world2 env0 localAddr 5 3 ⟨[addrA], [addrA]⟩ []).1 =
      crawlLoop world2 env0 localAddr 5 3 ⟨[addrA], [addrA]⟩ := by
  obtain ⟨_, _, _, _, h5, h6⟩ := claim_C2 world2 env0 localAddr 5 3
    ⟨[addrA], [addrA]⟩ (by decide) (by decide)
  exact ⟨h5, h6⟩

/-- C5: over any finite universe `U` containing every address any session can
return, from any state satisfying the crawl invariant the loop terminates —
`U.length + 1` rounds of fuel reach a state where the loop guard is false and
more fuel changes nothing — and the final Visited list is duplicate-free. -/
theorem claim_C5 (w : World) (env : Env) (local_address : SocketAddr)
    (limit : Nat) (U : List SocketAddr) (s0 : CrawlState)
    (hU : ∀ a, ∀ x ∈ taskResult w env local_address a, x ∈ U)
    (hinv : CrawlInv U s0) :
    ∃ N, (∀ k2, crawlLoop w env local_address limit (N + k2) s0 =
        crawlLoop w env local_address limit N s0) ∧
      loopDone limit (crawlLoop w env local_address limit N s0) ∧
      (crawlLoop w env local_address limit N s0).all_addresses.Nodup := by
  refine ⟨U.length + 1, ?_, ?_, ?_⟩
  · intro k2
    rw [crawlLoop_add w env local_address limit (U.length + 1) k2 s0]
    exact crawlLoop_of_done
      (crawlLoop_terminates_aux hU (U.length + 1) s0 hinv (by omega)) k2
  · exact crawlLoop_terminates_aux hU (U.length + 1) s0 hinv (by omega)
  · exact crawlLoop_all_nodup _ _ hinv.1

def stateC5 : CrawlState := ⟨[seedAddr], [seedAddr]⟩

def UC5 : List SocketAddr := [seedAddr, addrA, addrB, addrC]

/-- C5 witness: the crawl from the seed over `world1` terminates with a
duplicate-free Visited list. -/
theorem claim_C5_witness :
    ∃ N, (∀ k2, crawlLoop world1 env0 localAddr 9 (N + k2) stateC5 =
        crawlLoop world1 env0 localAddr 9 N stateC5) ∧
      loopDone 9 (crawlLoop world1 env0 localAddr 9 N stateC5) ∧
      (crawlLoop world1 env0 localAddr 9 N stateC5).all_addresses.Nodup := by
  apply claim_C5 world1 env0 localAddr 9 UC5 stateC5
  · intro a x hx
    by_cases ha : a = seedAddr
    · subst ha
      rw [show taskResult world1 env0 localAddr seedAddr =
        [addrA, addrB, addrC] from by decide] at hx
      simp only [UC5, List.mem_cons, List.mem_singleton] at hx ⊢
      tauto
    · rw [taskResult_conn_none (show world1.conn a = none from by
        simp [world1, ha])] at hx
      cases hx
  · exact ⟨by decide, by decide, by decide⟩
